import Mathlib

/-!
Verification development for the scout-app knowledge-graph core.

The Python sources are shallowly embedded: the NetworkX `MultiDiGraph` of
`kg/graph_store.py` becomes an explicit structure of node/edge lists in
insertion order (Python dicts preserve insertion order), Python floats become
rationals, and fallible code returns `Option`/`Except`.  Each definition
mirrors one function of the source; theorems settle the spec claims.
-/

namespace Scout

/-- Decidable equality for `Except` results, so concrete runs can be checked
by `decide`. -/
instance exceptDecEq {ε α : Type} [DecidableEq ε] [DecidableEq α] :
    DecidableEq (Except ε α)
  | .ok a, .ok b =>
    if h : a = b then .isTrue (by rw [h]) else .isFalse (by simp [h])
  | .error e, .error f =>
    if h : e = f then .isTrue (by rw [h]) else .isFalse (by simp [h])
  | .ok _, .error _ => .isFalse (by simp)
  | .error _, .ok _ => .isFalse (by simp)

/-- Scalar attribute values as they occur in node/edge attribute dicts
(strings, numbers, booleans).  Python floats are modelled as rationals. -/
inductive Value where
  | s (v : String)
  | n (v : ℚ)
  | b (v : Bool)
deriving DecidableEq

/-- A Python attribute dict: string-keyed, insertion ordered. -/
abbrev AttrMap := List (String × Value)

/-- Dict lookup (`d.get(k)`). -/
def attrGet : AttrMap → String → Option Value
  | [], _ => none
  | (k', v) :: rest, k => if k' = k then some v else attrGet rest k

/-- Dict assignment (`d[k] = v`): replace in place if the key exists,
otherwise append (Python insertion-order semantics). -/
def attrSet : AttrMap → String → Value → AttrMap
  | [], k, v => [(k, v)]
  | (k', v') :: rest, k, v =>
    if k' = k then (k', v) :: rest else (k', v') :: attrSet rest k v

/-- Dict update (`old.update(new)`): assign every pair of `new` in order. -/
def attrMerge (old new : AttrMap) : AttrMap :=
  new.foldl (fun acc p => attrSet acc p.1 p.2) old

/-- One edge of the multigraph: `add_edge(from, to, type=..., weight=...)`.
Extra edge properties are not inspected by any embedded operation. -/
structure Edge where
  src : String
  tgt : String
  rtype : String
  weight : ℚ
deriving DecidableEq

/-- The store's graph: nodes with attribute dicts plus a multiset of directed
edges, both in insertion order. -/
structure Graph where
  nodes : List (String × AttrMap)
  edges : List Edge
deriving DecidableEq

/-- First-match lookup in the node list. -/
def lookupNode : List (String × AttrMap) → String → Option AttrMap
  | [], _ => none
  | (k', d) :: rest, k => if k' = k then some d else lookupNode rest k

/-- `get_entity`: the node's attribute dict, or `None`. -/
def Graph.getEntity (g : Graph) (k : String) : Option AttrMap :=
  lookupNode g.nodes k

/-- `graph.has_node`. -/
def Graph.hasNode (g : Graph) (k : String) : Bool :=
  (g.getEntity k).isSome

/-- `add_node(k, **attrs)`: merge into the existing attribute dict, or append
a fresh node (NetworkX updates attributes of an existing node). -/
def Graph.addNode (g : Graph) (k : String) (attrs : AttrMap) : Graph :=
  if g.hasNode k then
    { g with nodes := g.nodes.map (fun p => if p.1 = k then (k, attrMerge p.2 attrs) else p) }
  else
    { g with nodes := g.nodes ++ [(k, attrs)] }

/-- Keep the first occurrence of every element (iteration order of a
NetworkX adjacency dict). -/
def dedupFirstAux : List String → List String → List String
  | [], _ => []
  | x :: rest, seen =>
    if x ∈ seen then dedupFirstAux rest seen else x :: dedupFirstAux rest (x :: seen)

def dedupFirst (l : List String) : List String := dedupFirstAux l []

/-- `graph.successors(n)`: distinct targets of edges out of `n`, in edge
insertion order. -/
def Graph.successors (g : Graph) (node : String) : List String :=
  dedupFirst ((g.edges.filter (fun e => decide (e.src = node))).map Edge.tgt)

/-- `graph.predecessors(n)`: distinct sources of edges into `n`. -/
def Graph.predecessors (g : Graph) (node : String) : List String :=
  dedupFirst ((g.edges.filter (fun e => decide (e.tgt = node))).map Edge.src)

/-- Relation types of the parallel edges from `a` to `b`
(`get_edge_data(a, b)` restricted to the `type` attribute). -/
def Graph.edgeTypes (g : Graph) (a b : String) : List String :=
  (g.edges.filter (fun e => decide (e.src = a) && decide (e.tgt = b))).map Edge.rtype

/-- `num_entities` and `num_relationships` of `get_statistics`. -/
def Graph.getStatistics (g : Graph) : Nat × Nat :=
  (g.nodes.length, g.edges.length)

/-! ### Entity-name validation and bracket stripping (`_validate_entity_name`) -/

/-- Python `str.strip()` on a character list. -/
def trimChars (cs : List Char) : List Char :=
  ((cs.dropWhile Char.isWhitespace).reverse.dropWhile Char.isWhitespace).reverse

/-- Python `str.strip()` on strings. -/
def pyStrip (s : String) : String := ⟨trimChars s.data⟩

/-- One-step body of the bracket-stripping loop, fuelled so that it reduces
by iota; every iteration strictly shrinks the text, so `cs.length` fuel
suffices. -/
def stripBracketsFuel : Nat → List Char → List Char
  | 0, cs => cs
  | fuel + 1, cs =>
    match cs with
    | [] => []
    | c :: rest =>
      if c = '[' ∧ (c :: rest).getLast? = some ']' then
        stripBracketsFuel fuel (trimChars rest.dropLast)
      else c :: rest

/-- The bracket-stripping loop of `_validate_entity_name` and
`add_relationship`: while the text starts with `[` and ends with `]`,
drop both and strip whitespace. -/
def stripBrackets (cs : List Char) : List Char :=
  stripBracketsFuel cs.length cs

/-- String form of the bracket-stripping loop. -/
def stripBracketsStr (s : String) : String := ⟨stripBrackets s.data⟩

/-- `_validate_entity_name`: `none` models the `ValueError` on an empty name;
for Person entities containing a bracket, the symmetric brackets are
stripped.  (The source's `has_node` probe on the stripped name only selects a
log message; the returned name is the stripped one either way.) -/
def validateEntityName (name etype : String) : Option String :=
  if name = "" then none
  else if etype = "Person" ∧ ('[' ∈ (pyStrip name).data ∨ ']' ∈ (pyStrip name).data) then
    some (stripBracketsStr (pyStrip name))
  else some (pyStrip name)

/-! ### `add_entity` and `add_relationship` -/

/-- The attribute dict written by `add_entity`: the base dict merged with
the caller's properties and, when updating an existing entity of the same
type, the preserved `created_at` plus a fresh `updated_at`. -/
def entityNodeData (g : Graph) (now etype : String) (props : AttrMap)
    (desc : Option String) (cleaned : String) : AttrMap :=
  let base : AttrMap :=
    [("type", .s etype), ("description", .s (desc.getD "")), ("created_at", .s now)]
  let nodeData := attrMerge base props
  match g.getEntity cleaned with
  | some existing =>
    if attrGet existing "type" = some (.s etype) then
      attrSet
        (attrSet nodeData "created_at"
          ((attrGet existing "created_at").getD
            ((attrGet nodeData "created_at").getD (.s now))))
        "updated_at" (.s now)
    else nodeData
  | none => nodeData

/-- `add_entity(name, entity_type, properties, description)`.  The wall-clock
timestamp is passed in as `now`.  Returns the success flag and the new store
state; `False` models both the empty-type early return and the caught
`ValueError` from validation. -/
def addEntity (g : Graph) (now : String) (name etype : String)
    (props : AttrMap) (desc : Option String) : Bool × Graph :=
  if etype = "" then (false, g)
  else
    match validateEntityName name etype with
    | none => (false, g)
    | some cleaned => (true, g.addNode cleaned (entityNodeData g now etype props desc cleaned))

/-- Endpoint resolution in `add_relationship`: if the literal name is not a
node, try the bracket-stripped variant once. -/
def resolveOnce (g : Graph) (name : String) : String :=
  if g.hasNode name then name
  else
    let cleaned := stripBracketsStr name
    if cleaned ≠ name ∧ g.hasNode cleaned then cleaned else name

/-- Tail of `add_relationship` after endpoint resolution: reject unless both
endpoints are present nodes, otherwise append the edge. -/
def addRelationshipResolved (g : Graph) (fromE toE rtype : String)
    (weight : ℚ) : Bool × Graph :=
  if g.hasNode fromE ∧ g.hasNode toE then
    (true, { g with edges := g.edges ++ [⟨fromE, toE, rtype, weight⟩] })
  else (false, g)

/-- `add_relationship(from_entity, to_entity, relation_type, ..., weight)`.
Extra edge properties are not modelled (no embedded operation reads them). -/
def addRelationship (g : Graph) (fromEntity toEntity rtype : String)
    (weight : ℚ) : Bool × Graph :=
  if fromEntity = "" ∨ toEntity = "" ∨ rtype = "" then (false, g)
  else addRelationshipResolved g (resolveOnce g (pyStrip fromEntity))
    (resolveOnce g (pyStrip toEntity)) rtype weight

/-- Store states reachable through the mutation interface, starting from the
fresh empty graph. -/
inductive Reachable : Graph → Prop
  | empty : Reachable ⟨[], []⟩
  | addEnt (g : Graph) (now name etype : String) (props : AttrMap) (desc : Option String) :
      Reachable g → Reachable (addEntity g now name etype props desc).2
  | addRel (g : Graph) (fromE toE rtype : String) (w : ℚ) :
      Reachable g → Reachable (addRelationship g fromE toE rtype w).2

/-! ### Traversal (`find_connected_entities`) -/

/-- Traversal direction; the source raises on any other string, which the
embedding rules out by construction. -/
inductive Direction where
  | outgoing
  | incoming
  | both
deriving DecidableEq

/-- Neighbor candidates per direction.  For `both` the source unions two
Python sets whose iteration order is unspecified; the embedding fixes
successors-first order, which the proved claims never depend on (each has at
most one `both`-direction neighbor). -/
def Graph.neighborsFor (g : Graph) (dir : Direction) (node : String) : List String :=
  match dir with
  | .outgoing => g.successors node
  | .incoming => g.predecessors node
  | .both =>
    let su := g.successors node
    su ++ (g.predecessors node).filter (fun p => decide (p ∉ su))

/-- The relation-type check on one neighbor: some forward edge
`current → neighbor` has an allowed type, or (only when `direction == both`)
some reverse edge `neighbor → current` does. -/
def edgeTypeOk (g : Graph) (dir : Direction) (rts : List String)
    (cur nb : String) : Bool :=
  if (g.edgeTypes cur nb).any (fun t => decide (t ∈ rts)) then true
  else
    match dir with
    | .both => (g.edgeTypes nb cur).any (fun t => decide (t ∈ rts))
    | _ => false

/-- Whether a neighbor passes the `relation_types` filter; an absent or empty
list (both falsy in Python) accepts unconditionally. -/
def acceptNeighbor (g : Graph) (dir : Direction) (rts : Option (List String))
    (cur nb : String) : Bool :=
  match rts with
  | some (t :: ts) => edgeTypeOk g dir (t :: ts) cur nb
  | _ => true

/-- The inner `for neighbor in neighbors` loop: threads the visited set,
queue, and output list. -/
def visitNeighbors (g : Graph) (dir : Direction) (rts : Option (List String))
    (cur : String) (depth : Nat) :
    List String → List String → List (String × Nat) → List String →
    List String × List (String × Nat) × List String
  | [], visited, queue, acc => (visited, queue, acc)
  | nb :: rest, visited, queue, acc =>
    if nb ∈ visited then visitNeighbors g dir rts cur depth rest visited queue acc
    else if acceptNeighbor g dir rts cur nb then
      visitNeighbors g dir rts cur depth rest
        (visited ++ [nb]) (queue ++ [(nb, depth + 1)]) (acc ++ [nb])
    else visitNeighbors g dir rts cur depth rest visited queue acc

/-- The BFS `while queue` loop, fuelled.  One fuel unit per dequeue; the
source loop performs at most `1 + #nodes` dequeues because every enqueued
node first enters the visited set. -/
def bfsLoop (g : Graph) (maxDepth : Nat) (rts : Option (List String))
    (dir : Direction) : Nat → List (String × Nat) → List String → List String →
    List String
  | 0, _, _, acc => acc
  | _ + 1, [], _, acc => acc
  | fuel + 1, (cur, depth) :: rest, visited, acc =>
    if maxDepth ≤ depth then bfsLoop g maxDepth rts dir fuel rest visited acc
    else
      let st := visitNeighbors g dir rts cur depth
        (g.neighborsFor dir cur) visited rest acc
      bfsLoop g maxDepth rts dir fuel st.2.1 st.1 st.2.2

/-- `find_connected_entities(start_entity, max_depth, relation_types,
direction)`. -/
def findConnectedEntities (g : Graph) (start : String) (maxDepth : Nat := 2)
    (rts : Option (List String) := none) (dir : Direction := .both) : List String :=
  if g.hasNode start then
    bfsLoop g maxDepth rts dir (g.nodes.length + 1) [(start, 0)] [start] []
  else []

/-! ### Value coercions used by the condition evaluator -/

/-- Digits of a numeral to a natural number. -/
def digitsToNat (cs : List Char) : Nat :=
  cs.foldl (fun acc c => acc * 10 + (c.toNat - '0'.toNat)) 0

/-- Value of a fractional digit run. -/
def fracToRat (cs : List Char) : ℚ :=
  (digitsToNat cs : ℚ) / (10 : ℚ) ^ cs.length

/-- Unsigned decimal numeral: digits, optionally a dot and more digits, at
least one digit overall (accepting `1.` and `.5` like Python `float`). -/
def parseUnsignedDecimal (cs : List Char) : Option ℚ :=
  let intPart := cs.takeWhile Char.isDigit
  let rest := cs.dropWhile Char.isDigit
  match rest with
  | [] => if intPart.isEmpty then none else some (digitsToNat intPart : ℚ)
  | '.' :: frac =>
    if frac.all Char.isDigit ∧ ¬ (intPart.isEmpty ∧ frac.isEmpty) then
      some ((digitsToNat intPart : ℚ) + fracToRat frac)
    else none
  | _ => none

/-- Python `float(s)` on a string, restricted to plain signed decimal
numerals (no exponent/infinity forms, which no embedded scenario uses);
`none` models the raised `ValueError`. -/
def parseDecimal (s : String) : Option ℚ :=
  match trimChars s.data with
  | '-' :: rest => (parseUnsignedDecimal rest).map Neg.neg
  | '+' :: rest => parseUnsignedDecimal rest
  | rest => parseUnsignedDecimal rest

/-- Python `float(x)` on an attribute value (`bool` is an `int` in Python). -/
def toFloat : Value → Option ℚ
  | .n q => some q
  | .b bo => some (if bo then 1 else 0)
  | .s st => parseDecimal st

/-- Python `str(x)` on an attribute value.  Rationals render via `toString`,
a modelling stand-in for Python's float formatting. -/
def pyStr : Value → String
  | .s st => st
  | .n q => toString q
  | .b bo => if bo then "True" else "False"

/-- Python `==` between attribute values (`1 == 1.0` and `True == 1` hold;
strings never equal numbers). -/
def pyEq : Value → Value → Bool
  | .s a, .s b => decide (a = b)
  | .n a, .n b => decide (a = b)
  | .b a, .b b => decide (a = b)
  | .n a, .b bo => decide (a = if bo then 1 else 0)
  | .b bo, .n b => decide ((if bo then (1 : ℚ) else 0) = b)
  | _, _ => false

/-- Python `<` on strings: lexicographic by code point. -/
def pyStrLtL : List Char → List Char → Bool
  | [], [] => false
  | [], _ :: _ => true
  | _ :: _, [] => false
  | a :: as, b :: bs =>
    if a.toNat < b.toNat then true
    else if b.toNat < a.toNat then false
    else pyStrLtL as bs

def pyStrLt (a b : String) : Bool := pyStrLtL a.data b.data

def pyStrGt (a b : String) : Bool := pyStrLt b a

def pyStrGe (a b : String) : Bool := !pyStrLt a b

def pyStrLe (a b : String) : Bool := !pyStrLt b a

/-- Python `str.lower()`, by characters (structural, so it evaluates). -/
def toLowerStr (s : String) : String := ⟨s.data.map Char.toLower⟩

/-- Whether `needle` starts `hay`. -/
def beginsWith : List Char → List Char → Bool
  | [], _ => true
  | _ :: _, [] => false
  | a :: as, b :: bs => decide (a = b) && beginsWith as bs

/-- Whether `needle` occurs contiguously inside `hay` (Python `in`). -/
def containsSub (needle : List Char) : List Char → Bool
  | [] => needle.isEmpty
  | c :: rest => beginsWith needle (c :: rest) || containsSub needle rest

/-- Case-insensitive substring test: `needle.lower() in hay.lower()`. -/
def strContainsCI (hay needle : String) : Bool :=
  containsSub (toLowerStr needle).data (toLowerStr hay).data

/-- Case-insensitive `hay.lower().startswith(needle.lower())`. -/
def strStartsCI (hay needle : String) : Bool :=
  beginsWith (toLowerStr needle).data (toLowerStr hay).data

/-- Case-insensitive `hay.lower().endswith(needle.lower())`. -/
def strEndsCI (hay needle : String) : Bool :=
  beginsWith (toLowerStr needle).data.reverse (toLowerStr hay).data.reverse

/-! ### `ConditionEvaluator.evaluate_property_condition` -/

/-- Numeric comparison with string fallback: Python computes
`float(a) OP float(b)` and on `ValueError`/`TypeError` falls back to
`str(a) OP str(b)`. -/
def numCmpFallback (fv v : Value) (numOp : ℚ → ℚ → Bool)
    (strOp : String → String → Bool) : Bool :=
  match toFloat fv, toFloat v with
  | some a, some b => numOp a b
  | _, _ => strOp (pyStr fv) (pyStr v)

/-- `evaluate_property_condition(node_data, field_name, operator, value)`.
Regular-expression search (`regex` operator) is abstracted as the parameter
`rmatch pattern text`. -/
def evalPropertyCondition (rmatch : String → String → Bool) (nd : AttrMap)
    (field op : String) (v : Value) : Bool :=
  match attrGet nd field with
  | none => false
  | some fv =>
    let o := toLowerStr op
    if o = "equals" ∨ o = "eq" ∨ o = "=" then pyEq fv v
    else if o = "not_equals" ∨ o = "ne" ∨ o = "!=" then !pyEq fv v
    else if o = "gt" ∨ o = ">" then
      numCmpFallback fv v (fun a b => decide (a > b)) pyStrGt
    else if o = "lt" ∨ o = "<" then
      numCmpFallback fv v (fun a b => decide (a < b)) pyStrLt
    else if o = "gte" ∨ o = ">=" then
      numCmpFallback fv v (fun a b => decide (a ≥ b)) pyStrGe
    else if o = "lte" ∨ o = "<=" then
      numCmpFallback fv v (fun a b => decide (a ≤ b)) pyStrLe
    else if o = "contains" ∨ o = "in" then strContainsCI (pyStr fv) (pyStr v)
    else if o = "startswith" ∨ o = "starts_with" then strStartsCI (pyStr fv) (pyStr v)
    else if o = "endswith" ∨ o = "ends_with" then strEndsCI (pyStr fv) (pyStr v)
    else if o = "regex" then rmatch (pyStr v) (pyStr fv)
    else false

/-- A property specification entry: either a literal value demanding
equality, or a map of operator conditions. -/
inductive PropCond where
  | lit (v : Value)
  | ops (conds : List (String × Value))
deriving DecidableEq

/-- The per-entity body of `filter_by_properties`: every key matches, where
an operator map matches as soon as any one condition holds. -/
def matchesProperties (rmatch : String → String → Bool) (nd : AttrMap)
    (spec : List (String × PropCond)) : Bool :=
  spec.all fun p =>
    match p.2 with
    | .ops conds => conds.any fun c => evalPropertyCondition rmatch nd p.1 c.1 c.2
    | .lit v =>
      match attrGet nd p.1 with
      | some fv => pyEq fv v
      | none => false

/-- `FilterProcessor.filter_by_properties(candidates, properties_spec)`:
candidates without node data, or with an empty attribute dict, are skipped. -/
def filterByProperties (rmatch : String → String → Bool) (g : Graph)
    (cands : List String) (spec : List (String × PropCond)) : List String :=
  cands.filter fun c =>
    match g.getEntity c with
    | none => false
    | some nd => if nd.isEmpty then false else matchesProperties rmatch nd spec

/-! ### Semantic-similarity filtering -/

/-- A parsed threshold: comparison operator plus numeric bound. -/
structure CompSpec where
  op : String
  value : ℚ
deriving DecidableEq

/-- The anchored threshold pattern of `parse_comparison`: optional blanks,
one of the six comparison operators (alternation order of the source
pattern), blanks, a run of sign/digit/dot characters, trailing blanks. -/
def matchCompRegex (s : String) : Option (String × String) :=
  let t := trimChars s.data
  let tryOp := fun (op : String) =>
    if beginsWith op.data t then
      let rest := (t.drop op.length).dropWhile Char.isWhitespace
      let numRun := rest.takeWhile (fun c => c = '-' ∨ c = '.' ∨ c.isDigit)
      if ¬ numRun.isEmpty ∧ (rest.drop numRun.length).isEmpty then
        some (op, (⟨numRun⟩ : String))
      else none
    else none
  match tryOp ">=" with
  | some r => some r
  | none =>
  match tryOp "<=" with
  | some r => some r
  | none =>
  match tryOp ">" with
  | some r => some r
  | none =>
  match tryOp "<" with
  | some r => some r
  | none =>
  match tryOp "==" with
  | some r => some r
  | none => tryOp "!="

/-- `FilterProcessor.parse_comparison`; `none` models the uncaught
`ValueError` when the matched numeral run is not a valid float. -/
def parseComparison : Value → Option CompSpec
  | .n q => some ⟨">=", q⟩
  | .b bo => some ⟨">=", if bo then 1 else 0⟩
  | .s st =>
    match matchCompRegex st with
    | some r => (parseDecimal r.2).map fun q => ⟨r.1, q⟩
    | none =>
      match parseDecimal st with
      | some q => some ⟨">=", q⟩
      | none => some ⟨">=", 0⟩

/-- Dot product of two embedding vectors (`np.dot` on equal-length vectors). -/
def dot (a b : List ℚ) : ℚ :=
  (a.zip b).foldl (fun acc p => acc + p.1 * p.2) 0

/-- The operator dispatch of `filter_by_semantic_similarity`; an unknown
operator keeps nothing. -/
def compareOp (op : String) (sim v : ℚ) : Bool :=
  if op = ">=" then decide (sim ≥ v)
  else if op = ">" then decide (sim > v)
  else if op = "<=" then decide (sim ≤ v)
  else if op = "<" then decide (sim < v)
  else if op = "==" then decide (sim = v)
  else if op = "!=" then decide (sim ≠ v)
  else false

/-- Text embedded for a candidate: its `description` attribute, or the
candidate id when the key is absent. -/
def textToEmbed (nd : AttrMap) (candidate : String) : String :=
  match attrGet nd "description" with
  | some v => pyStr v
  | none => candidate

/-- `filter_by_semantic_similarity(candidates, similar_to, threshold_spec)`:
without an embedding provider every candidate is dropped; candidates without
(nonempty) node data are skipped. -/
def filterBySemanticSimilarity (g : Graph) (emb? : Option (String → List ℚ))
    (cands : List String) (similarTo : String) (spec : CompSpec) : List String :=
  match emb? with
  | none => []
  | some emb =>
    let target := emb similarTo
    cands.filter fun c =>
      match g.getEntity c with
      | none => false
      | some nd =>
        if nd.isEmpty then false
        else compareOp spec.op (dot target (emb (textToEmbed nd c))) spec.value

/-- The `similar_to` stage of `_apply_all_filters`: the threshold clause
defaults to the string `"> 0.5"`; a threshold whose numeral Python cannot
cast propagates as an error. -/
def similarToStage (g : Graph) (emb? : Option (String → List ℚ))
    (cands : List String) (similarTo : String) (threshold? : Option Value) :
    Except String (List String) :=
  match parseComparison (threshold?.getD (.s "> 0.5")) with
  | some spec => .ok (filterBySemanticSimilarity g emb? cands similarTo spec)
  | none => .error "could not convert string to float"

/-! ### Path finding (`_compile_find_path_query`) -/

/-- Simple paths from `cur` to `target` using at most `fuel` further edges;
`visitedPath` holds the path so far in reverse. -/
def pathsAux (g : Graph) (target : String) :
    Nat → String → List String → List (List String)
  | 0, cur, visitedPath =>
    if cur = target then [visitedPath.reverse] else []
  | fuel + 1, cur, visitedPath =>
    (if cur = target then [visitedPath.reverse] else []) ++
      ((g.successors cur).filter (fun nb => decide (nb ∉ visitedPath))).flatMap
        (fun nb => pathsAux g target fuel nb (nb :: visitedPath))

/-- Minimal node count among the enumerated paths. -/
def minPathLen : List (List String) → Nat
  | [] => 0
  | p :: rest => rest.foldl (fun m q => min m q.length) p.length

/-- Modelled from the spec: `find_shortest_path` is called by
`_compile_find_path_query` but its definition is absent from the sources;
§4.4 describes it as shortest-path enumeration between the two entities,
bounded by `max_hops`, producing zero or more ordered id sequences. -/
def findShortestPath (g : Graph) (a b : String) (maxHops : Nat) :
    List (List String) :=
  let all := pathsAux g b maxHops a [a]
  all.filter fun p => decide (p.length = minPathLen all)

/-- One formatted path result: `path`, `length = len(path) - 1`, and the
`semantic_coherence` scores (empty without an embedding provider, the
configuration modelled here). -/
structure PathResult where
  path : List String
  len : Nat
  semanticCoherence : List ℚ
deriving DecidableEq

/-- Truthiness of the `from`/`to` clause (absent or empty string is falsy). -/
def truthyOpt : Option String → Bool
  | none => false
  | some s => decide (s ≠ "")

/-- The executable produced by `_compile_find_path_query`, for a definition
carrying only `from`/`to`/`max_hops`; the raised `ValueError` on a missing
endpoint becomes an `Except.error`. -/
def compileFindPathQuery (g : Graph) (fromNode toNode : Option String)
    (maxHops : Nat := 5) : Except String (List PathResult) :=
  if truthyOpt fromNode && truthyOpt toNode then
    .ok ((findShortestPath g (fromNode.getD "") (toNode.getD "") maxHops).map
      fun p => { path := p, len := p.length - 1, semanticCoherence := [] })
  else .error "from and to nodes must be specified for path finding."

/-! ### Envelope formatting and top-level execution -/

/-- The value produced by a compiled query: a flat result list, or the single
dictionary of connectivity mode. -/
inductive QueryResults where
  | list (items : List AttrMap)
  | single (item : AttrMap)
deriving DecidableEq

/-- `len(results) if isinstance(results, list) else 1`. -/
def countResults : QueryResults → Nat
  | .list items => items.length
  | .single _ => 1

/-- The response envelope; `Option` fields model keys that may be absent
from the response dict. -/
structure QueryResponse where
  success : Bool
  queryName : String
  queryType : String
  executionTime : ℚ
  results : Option QueryResults
  resultCount : Option Nat
  error : Option String
deriving DecidableEq

/-- Python `round(t, 4)`, on rationals. -/
def roundTo4 (q : ℚ) : ℚ := (round (q * 10000) : ℤ) / 10000

/-- `ResultFormatter.format_query_response`. -/
def formatQueryResponse (success : Bool) (queryName queryType : String)
    (results : Option QueryResults) (executionTime : ℚ)
    (error : Option String) : QueryResponse :=
  if success then
    { success := true, queryName, queryType,
      executionTime := roundTo4 executionTime,
      results := results,
      resultCount := some (match results with
        | some r => countResults r
        | none => 1),
      error := none }
  else
    { success := false, queryName, queryType,
      executionTime := roundTo4 executionTime,
      results := none, resultCount := none, error := error }

/-- `KnowledgeGraphQueryEngine.execute_query`: the parse/compile/execute
pipeline is abstracted as `run`; every raised exception inside it is an
`Except.error`, and both outcomes are converted to an envelope (the `except`
arm passes name and kind `"unknown"` and the message as `error`). -/
def executeQuery (run : String → Except String (String × String × QueryResults))
    (queryText : String) (elapsed : ℚ) : QueryResponse :=
  match run queryText with
  | .ok out => formatQueryResponse true out.1 out.2.1 (some out.2.2) elapsed none
  | .error msg => formatQueryResponse false "unknown" "unknown" none elapsed (some msg)

/-! ### Spec-side characterizations and concrete stores used by the
theorems below -/

/-- Matching of one property key, stated the way the spec words it: an
operator map matches when ANY one of its operator conditions holds, a
literal value demands equality of the entity's attribute. -/
def propKeyHolds (rmatch : String → String → Bool) (nd : AttrMap)
    (key : String) : PropCond → Prop
  | .ops conds => ∃ q ∈ conds, evalPropertyCondition rmatch nd key q.1 q.2 = true
  | .lit v => ∃ fv, attrGet nd key = some fv ∧ pyEq fv v = true

/-- Embedding provider whose query/candidate dot product is exactly `1/2`. -/
def simEmbHalf : String → List ℚ :=
  fun t => if t = "q" then [1] else if t = "paper" then [1/2] else [0]

/-- Embedding provider whose query/candidate dot product is exactly `1`. -/
def simEmbOne : String → List ℚ :=
  fun t => if t = "q" then [1] else if t = "paper" then [1] else [0]

/-- One-entity store whose candidate node has description `"paper"`. -/
def simGraphDoc : Graph :=
  ⟨[("doc", [("type", .s "Note"), ("description", .s "paper")])], []⟩

/-- A store built through the mutation interface: entities `A`, `B` and one
relationship `A → B`. -/
def storeAB : Graph :=
  (addRelationship
    (addEntity (addEntity ⟨[], []⟩ "t0" "A" "T" [] none).2 "t0" "B" "T" [] none).2
    "A" "B" "rel" 1).2

/-- One-Person store used to exercise the bracket-dedup scenario. -/
def storeJohn : Graph :=
  ⟨[("John", [("type", .s "Person"), ("description", .s ""), ("created_at", .s "t0")])], []⟩

/-- Two-entity store with sizes, used to exercise the properties filter. -/
def storeSizes : Graph :=
  ⟨[("x", [("type", .s "File"), ("size", .n 512)]),
    ("y", [("type", .s "File"), ("size", .n 2048)])], []⟩

/-! ## Helper lemmas -/

theorem bfsLoop_nil (g : Graph) (md : Nat) (rts : Option (List String))
    (dir : Direction) (fuel : Nat) (visited acc : List String) :
    bfsLoop g md rts dir fuel [] visited acc = acc := by
  cases fuel <;> rfl

/-- When every queued entry already sits at the depth bound, the loop only
drains the queue. -/
theorem bfsLoop_done (g : Graph) (md : Nat) (rts : Option (List String))
    (dir : Direction) (fuel : Nat) (q : List (String × Nat)) (visited acc : List String)
    (h : ∀ p ∈ q, md ≤ p.2) :
    bfsLoop g md rts dir fuel q visited acc = acc := by
  induction fuel generalizing q visited acc with
  | zero => rfl
  | succ f ih =>
    cases q with
    | nil => rfl
    | cons p rest =>
      obtain ⟨c, d⟩ := p
      have hd : md ≤ d := h (c, d) (List.mem_cons_self _ _)
      simp only [bfsLoop, if_pos hd]
      exact ih rest visited acc (fun p hp => h p (List.mem_cons_of_mem _ hp))

theorem lookupNode_map_replace_isSome (ns : List (String × AttrMap)) (k : String)
    (m : AttrMap → AttrMap) (x : String) :
    (lookupNode (ns.map (fun p => if p.1 = k then (k, m p.2) else p)) x).isSome =
      (lookupNode ns x).isSome := by
  induction ns with
  | nil => rfl
  | cons p rest ih =>
    obtain ⟨k', d'⟩ := p
    simp only [List.map_cons]
    by_cases hk : k' = k
    · subst hk
      rw [show (if (k', d').1 = k' then (k', m (k', d').2) else (k', d')) = (k', m d') from
        if_pos rfl]
      by_cases hx : k' = x
      · simp [lookupNode, hx]
      · simp only [lookupNode, if_neg hx]
        exact ih
    · rw [show (if (k', d').1 = k then (k, m (k', d').2) else (k', d')) = (k', d') from
        if_neg hk]
      by_cases hx : k' = x
      · simp [lookupNode, hx]
      · simp only [lookupNode, if_neg hx]
        exact ih

theorem lookupNode_append_left (ns ms : List (String × AttrMap)) (x : String)
    (h : (lookupNode ns x).isSome = true) :
    (lookupNode (ns ++ ms) x).isSome = true := by
  induction ns with
  | nil => simp [lookupNode] at h
  | cons p rest ih =>
    obtain ⟨k', d'⟩ := p
    by_cases hx : k' = x
    · simp [lookupNode, hx]
    · simp only [lookupNode, if_neg hx] at h
      simp only [List.cons_append, lookupNode, if_neg hx]
      exact ih h

theorem hasNode_addNode_mono (g : Graph) (k : String) (d : AttrMap) (x : String)
    (h : g.hasNode x = true) : (g.addNode k d).hasNode x = true := by
  unfold Graph.addNode
  by_cases hk : g.hasNode k = true
  · rw [if_pos hk]
    simp only [Graph.hasNode, Graph.getEntity] at h ⊢
    rw [lookupNode_map_replace_isSome g.nodes k (fun a => attrMerge a d) x]
    exact h
  · rw [if_neg hk]
    simp only [Graph.hasNode, Graph.getEntity] at h ⊢
    exact lookupNode_append_left g.nodes [(k, d)] x h

theorem addEntity_edges (g : Graph) (now name etype : String) (props : AttrMap)
    (desc : Option String) :
    ((addEntity g now name etype props desc).2).edges = g.edges := by
  unfold addEntity Graph.addNode
  repeat' split
  all_goals rfl

theorem hasNode_addEntity_mono (g : Graph) (now name etype : String) (props : AttrMap)
    (desc : Option String) (x : String) (h : g.hasNode x = true) :
    ((addEntity g now name etype props desc).2).hasNode x = true := by
  unfold addEntity
  split
  · exact h
  · split
    · exact h
    · exact hasNode_addNode_mono _ _ _ _ h

/-- `add_relationship` either fails leaving the store alone, or appends one
edge whose (resolved) endpoints are present nodes. -/
theorem addRelationship_cases (g : Graph) (fr toE rt : String) (w : ℚ) :
    addRelationship g fr toE rt w = (false, g) ∨
    ∃ f' t', g.hasNode f' = true ∧ g.hasNode t' = true ∧
      addRelationship g fr toE rt w = (true, { g with edges := g.edges ++ [⟨f', t', rt, w⟩] }) := by
  unfold addRelationship addRelationshipResolved
  split
  · exact .inl rfl
  · split
    next h => exact .inr ⟨_, _, h.1, h.2, rfl⟩
    · exact .inl rfl

theorem validateEntityName_some (name etype : String) (h : name ≠ "") :
    ∃ c, validateEntityName name etype = some c := by
  unfold validateEntityName
  rw [if_neg h]
  split <;> exact ⟨_, rfl⟩

theorem statistics_addNode_existing (g : Graph) (k : String) (d : AttrMap)
    (h : g.hasNode k = true) :
    ((g.addNode k d).getStatistics).1 = (g.getStatistics).1 := by
  simp [Graph.addNode, h, Graph.getStatistics]

/-- The default threshold clause `"> 0.5"` parses to a strict comparison at
one half. -/
theorem parseComparison_default : parseComparison (.s "> 0.5") = some ⟨">", 1/2⟩ := by
  have h : matchCompRegex "> 0.5" = some (">", "0.5") := by decide
  simp only [parseComparison, h]
  have h2 : parseDecimal "0.5" = some (1/2) := by
    simp [parseDecimal, parseUnsignedDecimal, trimChars, digitsToNat, fracToRat]
    norm_num
  simp [h2]

theorem compareOp_gt_eq (a b : ℚ) : compareOp ">" a b = decide (a > b) := rfl

theorem propKeyHolds_iff (rmatch : String → String → Bool) (nd : AttrMap)
    (key : String) (pc : PropCond) :
    (match pc with
      | .ops conds => conds.any fun q => evalPropertyCondition rmatch nd key q.1 q.2
      | .lit v =>
        match attrGet nd key with
        | some fv => pyEq fv v
        | none => false) = true ↔ propKeyHolds rmatch nd key pc := by
  cases pc with
  | ops conds => simp [propKeyHolds, List.any_eq_true]
  | lit v => cases h : attrGet nd key <;> simp [propKeyHolds, h]

theorem matchesProperties_iff (rmatch : String → String → Bool) (nd : AttrMap)
    (spec : List (String × PropCond)) :
    matchesProperties rmatch nd spec = true ↔
      ∀ p ∈ spec, propKeyHolds rmatch nd p.1 p.2 := by
  simp only [matchesProperties, List.all_eq_true]
  exact forall₂_congr fun p _ => propKeyHolds_iff rmatch nd p.1 p.2

/-! ## Claim theorems -/

/-- C1: in every graph whose only edge is `B → A` typed `"rel"`,
`find_connected_entities(A, max_depth := 1, direction := both,
relation_types := ["rel"])` includes `B`: with direction `both` the
relation-type check also inspects the reverse edge `B → A`. -/
theorem find_connected_both_checks_reverse_edge (A B : String) (w : ℚ)
    (nodes : List (String × AttrMap)) (hAB : A ≠ B)
    (hA : lookupNode nodes A ≠ none) :
    B ∈ findConnectedEntities ⟨nodes, [⟨B, A, "rel", w⟩]⟩ A 1 (some ["rel"]) .both := by
  have hBA : B ≠ A := Ne.symm hAB
  have hhas : (Graph.mk nodes [⟨B, A, "rel", w⟩]).hasNode A = true := by
    simp only [Graph.hasNode, Graph.getEntity]
    exact Option.isSome_iff_ne_none.mpr hA
  obtain ⟨k, hk⟩ : ∃ k, nodes.length = k + 1 := by
    cases nodes with
    | nil => simp [lookupNode] at hA
    | cons p rest => exact ⟨rest.length, rfl⟩
  simp only [findConnectedEntities, hhas, if_true]
  simp only [hk]
  simp [bfsLoop, visitNeighbors, Graph.neighborsFor, Graph.successors,
    Graph.predecessors, Graph.edgeTypes, dedupFirst, dedupFirstAux,
    acceptNeighbor, edgeTypeOk, List.filter, hAB, hBA, bfsLoop_nil]

theorem find_connected_both_checks_reverse_edge_witness :
    "B" ∈ findConnectedEntities
      ⟨[("A", [("type", .s "T")]), ("B", [("type", .s "T")])], [⟨"B", "A", "rel", 1⟩]⟩
      "A" 1 (some ["rel"]) .both :=
  find_connected_both_checks_reverse_edge "A" "B" 1
    [("A", [("type", .s "T")]), ("B", [("type", .s "T")])]
    (by decide) (by decide)

/-- C10: in every graph whose only edge is `B → A` typed `"rel"`,
`find_connected_entities(A, max_depth := 1, direction := incoming,
relation_types := ["rel"])` is empty: for a direction other than `both` the
relation-type check only inspects forward edges `current → neighbor`, so the
predecessor reached through the incoming typed edge is never accepted. -/
theorem find_connected_incoming_typed_empty (A B : String) (w : ℚ)
    (nodes : List (String × AttrMap)) (hAB : A ≠ B)
    (hA : lookupNode nodes A ≠ none) :
    findConnectedEntities ⟨nodes, [⟨B, A, "rel", w⟩]⟩ A 1 (some ["rel"]) .incoming = [] := by
  have hBA : B ≠ A := Ne.symm hAB
  have hhas : (Graph.mk nodes [⟨B, A, "rel", w⟩]).hasNode A = true := by
    simp only [Graph.hasNode, Graph.getEntity]
    exact Option.isSome_iff_ne_none.mpr hA
  obtain ⟨k, hk⟩ : ∃ k, nodes.length = k + 1 := by
    cases nodes with
    | nil => simp [lookupNode] at hA
    | cons p rest => exact ⟨rest.length, rfl⟩
  simp only [findConnectedEntities, hhas, if_true]
  simp only [hk]
  simp [bfsLoop, visitNeighbors, Graph.neighborsFor, Graph.successors,
    Graph.predecessors, Graph.edgeTypes, dedupFirst, dedupFirstAux,
    acceptNeighbor, edgeTypeOk, List.filter, hAB, hBA, bfsLoop_nil]

theorem find_connected_incoming_typed_empty_witness :
    findConnectedEntities
      ⟨[("A", [("type", .s "T")]), ("B", [("type", .s "T")])], [⟨"B", "A", "rel", 1⟩]⟩
      "A" 1 (some ["rel"]) .incoming = [] :=
  find_connected_incoming_typed_empty "A" "B" 1
    [("A", [("type", .s "T")]), ("B", [("type", .s "T")])]
    (by decide) (by decide)

/-- C3: in every graph whose only edges are the chain `A → B → C → D` typed
`"rel"`, `find_connected_entities(A, max_depth := 2, direction := outgoing)`
returns exactly `[B, C]` in breadth-first discovery order (start excluded),
and `find_connected_entities(A, max_depth := 1)` (defaults: direction
`both`, no relation types) returns exactly `[B]`. -/
theorem find_connected_chain_bfs (A B C D : String) (w1 w2 w3 : ℚ)
    (nodes : List (String × AttrMap))
    (hAB : A ≠ B) (hAC : A ≠ C) (hAD : A ≠ D) (hBC : B ≠ C)
    (hA : lookupNode nodes A ≠ none) :
    findConnectedEntities ⟨nodes, [⟨A, B, "rel", w1⟩, ⟨B, C, "rel", w2⟩, ⟨C, D, "rel", w3⟩]⟩
        A 2 none .outgoing = [B, C] ∧
    findConnectedEntities ⟨nodes, [⟨A, B, "rel", w1⟩, ⟨B, C, "rel", w2⟩, ⟨C, D, "rel", w3⟩]⟩
        A 1 none .both = [B] := by
  have hhas : (Graph.mk nodes
      [⟨A, B, "rel", w1⟩, ⟨B, C, "rel", w2⟩, ⟨C, D, "rel", w3⟩]).hasNode A = true := by
    simp only [Graph.hasNode, Graph.getEntity]
    exact Option.isSome_iff_ne_none.mpr hA
  obtain ⟨k, hk⟩ : ∃ k, nodes.length = k + 1 := by
    cases nodes with
    | nil => simp [lookupNode] at hA
    | cons p rest => exact ⟨rest.length, rfl⟩
  constructor
  · simp only [findConnectedEntities, hhas, if_true]
    simp only [hk]
    simp only [bfsLoop, visitNeighbors, Graph.neighborsFor, Graph.successors,
      Graph.predecessors, Graph.edgeTypes, dedupFirst, dedupFirstAux,
      acceptNeighbor, edgeTypeOk, List.filter, hAB, hAC, hAD, hBC]
    simp [visitNeighbors, Graph.neighborsFor, Graph.successors,
      Graph.predecessors, Graph.edgeTypes, dedupFirst, dedupFirstAux,
      acceptNeighbor, edgeTypeOk, List.filter, hAB, hAC, hAD, hBC,
      Ne.symm hAB, Ne.symm hAC, Ne.symm hAD, Ne.symm hBC,
      bfsLoop, bfsLoop_nil]
    exact bfsLoop_done _ _ _ _ _ _ _ _ (by simp)
  · simp only [findConnectedEntities, hhas, if_true]
    simp only [hk]
    simp [bfsLoop, visitNeighbors, Graph.neighborsFor, Graph.successors,
      Graph.predecessors, Graph.edgeTypes, dedupFirst, dedupFirstAux,
      acceptNeighbor, edgeTypeOk, List.filter, hAB, hAC, hAD, hBC,
      Ne.symm hAB, Ne.symm hAC, Ne.symm hAD, Ne.symm hBC,
      bfsLoop_nil]

theorem find_connected_chain_bfs_witness :
    findConnectedEntities
      ⟨[("A", []), ("B", []), ("C", []), ("D", [])],
        [⟨"A", "B", "rel", 1⟩, ⟨"B", "C", "rel", 1⟩, ⟨"C", "D", "rel", 1⟩]⟩
      "A" 2 none .outgoing = ["B", "C"] ∧
    findConnectedEntities
      ⟨[("A", []), ("B", []), ("C", []), ("D", [])],
        [⟨"A", "B", "rel", 1⟩, ⟨"B", "C", "rel", 1⟩, ⟨"C", "D", "rel", 1⟩]⟩
      "A" 1 none .both = ["B"] :=
  find_connected_chain_bfs "A" "B" "C" "D" 1 1 1
    [("A", []), ("B", []), ("C", []), ("D", [])]
    (by decide) (by decide) (by decide) (by decide) (by decide)

/-- C2: for every store whose edges are exactly the chain `A → B → C` (any
edge types), the compiled path query `from := A, to := C, max_hops := 5`
yields the single result with path `[A, B, C]` and length field `2`; in
every path result the length field is `len(path) - 1`; and a path query
missing `from` or `to` is an error.  (The shortest-path enumeration itself
is modelled from the spec, §4.4, since `find_shortest_path` is absent from
the sources.) -/
theorem find_path_chain_and_validation (A B C t1 t2 : String) (w1 w2 : ℚ)
    (nodes : List (String × AttrMap)) (hA : A ≠ "") (hC : C ≠ "")
    (hAB : A ≠ B) (hAC : A ≠ C) (hBC : B ≠ C) :
    compileFindPathQuery ⟨nodes, [⟨A, B, t1, w1⟩, ⟨B, C, t2, w2⟩]⟩ (some A) (some C) 5 =
      .ok [⟨[A, B, C], 2, []⟩] ∧
    (∀ (g : Graph) (f t : Option String) (mh : Nat) (l : List PathResult),
      compileFindPathQuery g f t mh = .ok l → ∀ r ∈ l, r.len = r.path.length - 1) ∧
    (∀ (g : Graph) (t : Option String) (mh : Nat),
      ∃ e, compileFindPathQuery g none t mh = .error e) ∧
    (∀ (g : Graph) (f : Option String) (mh : Nat),
      ∃ e, compileFindPathQuery g f none mh = .error e) := by
  refine ⟨?_, ?_, ?_, ?_⟩
  · have hcond : (truthyOpt (some A) && truthyOpt (some C)) = true := by
      simp [truthyOpt, hA, hC]
    simp only [compileFindPathQuery, hcond, if_true, Option.getD]
    simp [findShortestPath, pathsAux, minPathLen, Graph.successors, Graph.edgeTypes,
      dedupFirst, dedupFirstAux, List.filter, hAB, hAC, hBC,
      Ne.symm hAB, Ne.symm hAC, Ne.symm hBC]
  · intro g f t mh l hl r hr
    unfold compileFindPathQuery at hl
    split at hl
    · injection hl with hl
      subst hl
      simp only [List.mem_map] at hr
      obtain ⟨p, _, rfl⟩ := hr
      rfl
    · exact absurd hl (by simp)
  · intro g t mh
    exact ⟨_, rfl⟩
  · intro g f mh
    cases f with
    | none => exact ⟨_, rfl⟩
    | some s =>
      refine ⟨"from and to nodes must be specified for path finding.", ?_⟩
      simp [compileFindPathQuery, truthyOpt]

theorem find_path_chain_and_validation_witness :
    compileFindPathQuery ⟨[("A", []), ("B", []), ("C", [])],
        [⟨"A", "B", "t1", 1⟩, ⟨"B", "C", "t2", 1⟩]⟩ (some "A") (some "C") 5 =
      .ok [⟨["A", "B", "C"], 2, []⟩] :=
  (find_path_chain_and_validation "A" "B" "C" "t1" "t2" 1 1
    [("A", []), ("B", []), ("C", [])]
    (by decide) (by decide) (by decide) (by decide) (by decide)).1

/-- C4: when either endpoint of `add_relationship` does not resolve to an
existing node (after the one bracket-stripping fallback per endpoint), the
call returns false and leaves the store unchanged; consequently every store
reachable through the mutation interface satisfies the invariant that both
endpoints of every relationship exist as entities. -/
theorem add_relationship_endpoint_invariant :
    (∀ (g : Graph) (fr toE rt : String) (w : ℚ),
      ¬ (g.hasNode (resolveOnce g (pyStrip fr)) = true ∧
         g.hasNode (resolveOnce g (pyStrip toE)) = true) →
      addRelationship g fr toE rt w = (false, g)) ∧
    (∀ g : Graph, Reachable g → ∀ e ∈ g.edges,
      g.hasNode e.src = true ∧ g.hasNode e.tgt = true) := by
  constructor
  · intro g fr toE rt w h
    unfold addRelationship addRelationshipResolved
    repeat' split
    all_goals rfl
  · intro g hg
    induction hg with
    | empty =>
      intro e he
      simp at he
    | addEnt g' now name etype props desc hr ih =>
      intro e he
      rw [addEntity_edges] at he
      exact ⟨hasNode_addEntity_mono _ _ _ _ _ _ _ (ih e he).1,
             hasNode_addEntity_mono _ _ _ _ _ _ _ (ih e he).2⟩
    | addRel g' fr toE rt w hr ih =>
      intro e he
      rcases addRelationship_cases g' fr toE rt w with h | ⟨f', t', hf, ht, h⟩
      · rw [h] at he ⊢
        exact ih e he
      · rw [h] at he ⊢
        have hn : ∀ x, ({ g' with edges := g'.edges ++ [⟨f', t', rt, w⟩] } : Graph).hasNode x =
            g'.hasNode x := fun x => rfl
      -- the second component's edge list is the old one plus the new edge
        rcases List.mem_append.mp he with he' | he'
        · rw [hn, hn]
          exact ih e he'
        · rw [hn, hn]
          rcases List.mem_singleton.mp he' with rfl
          exact ⟨hf, ht⟩

theorem add_relationship_endpoint_invariant_witness :
    addRelationship ⟨[], []⟩ "A" "B" "rel" 1 = (false, (⟨[], []⟩ : Graph)) ∧
    (storeAB.hasNode "A" = true ∧ storeAB.hasNode "B" = true) :=
  ⟨add_relationship_endpoint_invariant.1 ⟨[], []⟩ "A" "B" "rel" 1 (by decide),
   add_relationship_endpoint_invariant.2 storeAB
     (Reachable.addRel _ _ _ _ _
       (Reachable.addEnt _ _ _ _ _ _ (Reachable.addEnt _ _ _ _ _ _ Reachable.empty)))
     ⟨"A", "B", "rel", 1⟩ (by decide)⟩

/-- C8 counterexample: `add_entity` with the non-empty id `"John"` and an
empty type string returns false, so the call does not succeed for every type
value as the claim states. -/
theorem add_entity_empty_type_counterexample :
    "John" ≠ "" ∧ (addEntity ⟨[], []⟩ "t" "John" "" [] none).1 = false := by
  constructor
  · decide
  · rfl

/-- C8 amended: `add_entity` returns true exactly when the id is a non-empty
string AND the type is non-empty; an empty type is rejected by the early
guard even for a valid id. -/
theorem add_entity_true_iff (g : Graph) (now name etype : String)
    (props : AttrMap) (desc : Option String) :
    (addEntity g now name etype props desc).1 = true ↔ (name ≠ "" ∧ etype ≠ "") := by
  by_cases ht : etype = ""
  · simp [addEntity, ht]
  · unfold addEntity
    rw [if_neg ht]
    by_cases hn : name = ""
    · simp [validateEntityName, hn, ht]
    · obtain ⟨c, hc⟩ := validateEntityName_some name etype hn
      rw [hc]
      simp [hn, ht]

/-- C9: when `"John"` is already present with type `"Person"`, adding
`"[John]"` as a Person succeeds and leaves the entity count of
`get_statistics` unchanged (the bracket-stripped id merges into the existing
node instead of creating a new one). -/
theorem bracket_dedup_preserves_count (g : Graph) (now : String) (props : AttrMap)
    (desc : Option String) (nd : AttrMap) (hget : g.getEntity "John" = some nd) :
    (addEntity g now "[John]" "Person" props desc).1 = true ∧
    ((addEntity g now "[John]" "Person" props desc).2.getStatistics).1 =
      (g.getStatistics).1 := by
  have hval : validateEntityName "[John]" "Person" = some "John" := by decide
  have hhas : g.hasNode "John" = true := by
    simp [Graph.hasNode, hget]
  constructor
  · unfold addEntity
    rw [if_neg (by decide : ¬("Person" : String) = "")]
    rw [hval]
  · unfold addEntity
    rw [if_neg (by decide : ¬("Person" : String) = "")]
    rw [hval]
    exact statistics_addNode_existing g _ _ hhas

theorem bracket_dedup_preserves_count_witness :
    (addEntity storeJohn "t1" "[John]" "Person" [] none).1 = true ∧
    ((addEntity storeJohn "t1" "[John]" "Person" [] none).2.getStatistics).1 =
      (storeJohn.getStatistics).1 :=
  bracket_dedup_preserves_count storeJohn "t1" [] none
    [("type", .s "Person"), ("description", .s ""), ("created_at", .s "t0")] (by decide)

/-- C5 counterexample: under the default threshold the candidate whose
description embedding has dot product exactly `1/2` with the query embedding
is dropped, although the claim (`>= 0.5` keeps it) says it is kept.  The
embedded text for `"doc"` is its description `"paper"`. -/
theorem similar_default_threshold_counterexample :
    dot (simEmbHalf "q") (simEmbHalf "paper") ≥ 1/2 ∧
    similarToStage simGraphDoc (some simEmbHalf) ["doc"] "q" none = .ok [] := by
  constructor
  · have hdot : dot (simEmbHalf "q") (simEmbHalf "paper") = 1/2 := by
      simp [simEmbHalf, dot]
    rw [hdot]
  · simp only [similarToStage, Option.getD, parseComparison_default]
    simp only [filterBySemanticSimilarity]
    congr 1
    have hget : simGraphDoc.getEntity "doc" =
        some [("type", .s "Note"), ("description", .s "paper")] := by decide
    simp only [List.filter, hget]
    have htext : textToEmbed [("type", .s "Note"), ("description", .s "paper")] "doc" =
        "paper" := by decide
    simp only [htext]
    have hdot : dot (simEmbHalf "q") (simEmbHalf "paper") = 1/2 := by
      simp [simEmbHalf, dot]
    rw [hdot]
    rw [compareOp_gt_eq]
    norm_num

/-- C5 amended: for a node-find query with a `similar_to` clause and no
threshold clause, a candidate is kept iff the dot product of the query
embedding and the candidate's description embedding is STRICTLY greater than
`0.5` (the default threshold clause is the string `"> 0.5"`). -/
theorem similar_default_threshold_strict (g : Graph) (emb : String → List ℚ)
    (cands : List String) (similarTo : String) (l : List String)
    (h : similarToStage g (some emb) cands similarTo none = .ok l) (c : String) :
    c ∈ l ↔ c ∈ cands ∧ ∃ nd, g.getEntity c = some nd ∧ nd ≠ [] ∧
      dot (emb similarTo) (emb (textToEmbed nd c)) > 1/2 := by
  simp only [similarToStage, Option.getD, parseComparison_default] at h
  simp only [filterBySemanticSimilarity] at h
  injection h with h
  subst h
  simp only [List.mem_filter]
  constructor
  · rintro ⟨hc, hp⟩
    refine ⟨hc, ?_⟩
    cases hge : g.getEntity c with
    | none =>
      rw [hge] at hp
      simp at hp
    | some nd =>
      rw [hge] at hp
      dsimp only at hp
      by_cases hne : nd.isEmpty
      · rw [if_pos hne] at hp
        simp at hp
      · rw [if_neg hne] at hp
        rw [compareOp_gt_eq] at hp
        refine ⟨nd, rfl, ?_, by simpa using hp⟩
        simpa [List.isEmpty_iff] using hne
  · rintro ⟨hc, nd, hge, hne, hgt⟩
    refine ⟨hc, ?_⟩
    rw [hge]
    dsimp only
    rw [if_neg (by simpa [List.isEmpty_iff] using hne)]
    rw [compareOp_gt_eq]
    simpa using hgt

theorem similar_default_threshold_strict_witness :
    "doc" ∈ ["doc"] ↔ "doc" ∈ ["doc"] ∧ ∃ nd, simGraphDoc.getEntity "doc" = some nd ∧
      nd ≠ [] ∧ dot (simEmbOne "q") (simEmbOne (textToEmbed nd "doc")) > 1/2 :=
  similar_default_threshold_strict simGraphDoc simEmbOne ["doc"] "q" ["doc"]
    (by
      simp only [similarToStage, Option.getD, parseComparison_default]
      simp only [filterBySemanticSimilarity]
      congr 1
      have hget : simGraphDoc.getEntity "doc" =
          some [("type", .s "Note"), ("description", .s "paper")] := by decide
      simp only [List.filter, hget]
      have htext : textToEmbed [("type", .s "Note"), ("description", .s "paper")] "doc" =
          "paper" := by decide
      simp only [htext]
      have hdot : dot (simEmbOne "q") (simEmbOne "paper") = 1 := by
        simp [simEmbOne, dot]
      rw [hdot]
      rw [compareOp_gt_eq]
      norm_num)
    "doc"

/-- C6: the properties filter keeps a (present, nonempty) entity iff every
property key of the specification matches — an operator map matching when
ANY of its operator conditions holds, a literal value demanding equality —
and for the numeric operators `gt`/`lt`/`gte`/`lte` the evaluation casts
both sides to numbers, falling back to string comparison when the cast
fails. -/
theorem filter_by_properties_semantics :
    (∀ (rmatch : String → String → Bool) (g : Graph) (cands : List String)
        (spec : List (String × PropCond)) (c : String) (nd : AttrMap),
      g.getEntity c = some nd → nd ≠ [] →
      (c ∈ filterByProperties rmatch g cands spec ↔
        c ∈ cands ∧ ∀ p ∈ spec, propKeyHolds rmatch nd p.1 p.2)) ∧
    (∀ (rmatch : String → String → Bool) (nd : AttrMap) (field : String) (v fv : Value),
      attrGet nd field = some fv →
      evalPropertyCondition rmatch nd field "gt" v =
        numCmpFallback fv v (fun a b => decide (a > b)) pyStrGt ∧
      evalPropertyCondition rmatch nd field "lt" v =
        numCmpFallback fv v (fun a b => decide (a < b)) pyStrLt ∧
      evalPropertyCondition rmatch nd field "gte" v =
        numCmpFallback fv v (fun a b => decide (a ≥ b)) pyStrGe ∧
      evalPropertyCondition rmatch nd field "lte" v =
        numCmpFallback fv v (fun a b => decide (a ≤ b)) pyStrLe) := by
  constructor
  · intro rmatch g cands spec c nd hget hne
    have hempty : nd.isEmpty = false := by
      simp [List.isEmpty_iff, hne]
    simp [filterByProperties, List.mem_filter, hget, hempty, matchesProperties_iff]
    exact fun _ _ => hne
  · intro rmatch nd field v fv hget
    refine ⟨?_, ?_, ?_, ?_⟩ <;> (simp only [evalPropertyCondition, hget]; rfl)

theorem filter_by_properties_semantics_witness :
    ("y" ∈ filterByProperties (fun _ _ => false) storeSizes ["x", "y"]
        [("size", .ops [("gt", .n 1000)])] ↔
      "y" ∈ ["x", "y"] ∧ ∀ p ∈ [("size", PropCond.ops [("gt", Value.n 1000)])],
        propKeyHolds (fun _ _ => false)
          [("type", .s "File"), ("size", .n 2048)] p.1 p.2) ∧
    evalPropertyCondition (fun _ _ => false) [("size", Value.n 2048)] "size" "gt" (.n 1000) =
      numCmpFallback (.n 2048) (.n 1000) (fun a b => decide (a > b)) pyStrGt :=
  ⟨filter_by_properties_semantics.1 (fun _ _ => false) storeSizes ["x", "y"]
      [("size", .ops [("gt", .n 1000)])] "y"
      [("type", .s "File"), ("size", .n 2048)] (by decide) (by decide),
   (filter_by_properties_semantics.2 (fun _ _ => false) [("size", Value.n 2048)]
      "size" (.n 1000) (.n 2048) (by decide)).1⟩

/-- C7: `execute_query` is total — every outcome of the pipeline, including
any internal error, becomes an envelope: a failure envelope has an error
message and neither `results` nor `result_count`; a success envelope carries
`results` and `result_count` (list length, or `1` for a non-list result);
`execution_time` is always the rounded elapsed time. -/
theorem execute_query_envelope_total
    (run : String → Except String (String × String × QueryResults))
    (q : String) (elapsed : ℚ) :
    ((executeQuery run q elapsed).success = false →
      (executeQuery run q elapsed).error.isSome = true ∧
      (executeQuery run q elapsed).results = none ∧
      (executeQuery run q elapsed).resultCount = none) ∧
    ((executeQuery run q elapsed).success = true →
      ∃ res, (executeQuery run q elapsed).results = some res ∧
        (executeQuery run q elapsed).resultCount = some (countResults res) ∧
        (executeQuery run q elapsed).error = none) ∧
    (executeQuery run q elapsed).executionTime = roundTo4 elapsed := by
  cases h : run q <;> simp [executeQuery, h, formatQueryResponse]

theorem execute_query_envelope_total_witness :
    (executeQuery (fun _ => .error "boom") "q" 0).error.isSome = true ∧
    (executeQuery (fun _ => .error "boom") "q" 0).results = none ∧
    (executeQuery (fun _ => .error "boom") "q" 0).resultCount = none :=
  (execute_query_envelope_total (fun _ => .error "boom") "q" 0).1 rfl

end Scout
